import Mathlib

/-!
Verification of the Quantum Battleship engine and client against its
natural-language specification.

The repository ships the React/TypeScript client (`src/App.tsx`,
`src/api/quantumApi.ts`, `src/components/Grid.tsx`, ...) together with run
scripts for a Python/Flask backend (`app_quantum.py`) that is not part of the
source tree.  Client-side logic is embedded directly from the TypeScript
source; the backend engine (Measurement Simulator, Damage Accumulator, Game
Session state machine, Session Registry read path) is modelled from the
specification, as indicated on each definition.

Damage percentages and measured probabilities are real values in the code;
they are embedded as rationals (`ℚ`), which is exact for every value the
engine produces (empirical probabilities are ratios of counts).
-/

namespace QuantumBattleship

/-- The fixed board size N = 5 of the quantum mode: grid positions 0..4. -/
def gridSize : Nat := 5

/-- A player of a two-player session. -/
inductive Player where
  | one
  | two
deriving DecidableEq

/-- The opposing player. -/
def Player.opponent : Player → Player
  | .one => .two
  | .two => .one

/-- Layout validity: exactly 3 distinct positions, each in `[0, gridSize)`. -/
def validLayout (l : List Nat) : Prop :=
  l.length = 3 ∧ l.Nodup ∧ ∀ p ∈ l, p < gridSize

instance (l : List Nat) : Decidable (validLayout l) := by
  unfold validLayout; infer_instance

/-- The engine's error taxonomy (spec §7). -/
inductive GameError where
  | notFound
  | invalidShipPlacement
  | invalidPosition
  | invalidState
  | invalidConfiguration
deriving DecidableEq

/-- Modelled from the spec: the Damage Accumulator's `apply` operation of
`app_quantum.py` (backend absent from the source tree), §4.2:
`increment = measured_probability * 100`;
`damage'[target] = min(100, damage[target] + increment)`;
all other entries unchanged. -/
def applyDamage (damage : List ℚ) (target : Nat) (measuredProbability : ℚ) :
    List ℚ :=
  damage.set target (min 100 (damage.getD target 0 + measuredProbability * 100))

/-- The fresh damage state of a new session: five zero entries. -/
def initialDamage : List ℚ := List.replicate gridSize 0

/-- Modelled from the spec: the injectable, seedable random source of the
Measurement Simulator of `app_quantum.py` (backend absent from the source
tree), §4.1 and §9.  A linear congruential generator over 31-bit state stands
in for the unspecified pseudo-random algorithm. -/
structure Rng where
  state : Nat
deriving DecidableEq

/-- Seed the random source. -/
def Rng.ofSeed (seed : Nat) : Rng := ⟨seed % 2 ^ 31⟩

/-- Draw one uniform value in `[0, 2^31)` and advance the generator. -/
def Rng.next (r : Rng) : Nat × Rng :=
  let s := (r.state * 1103515245 + 12345) % 2 ^ 31
  (s, ⟨s⟩)

/-- Modelled from the spec: one Bernoulli trial with success probability `p`
(§4.1): the drawn value `v`, uniform in `[0, 2^31)`, counts as success exactly
when `v < p * 2^31`, stated by cross-multiplication on the reduced fraction.
For `p = 1` this is always true, for `p = 0` never. -/
def bernoulli (p : ℚ) (r : Rng) : Bool × Rng :=
  let (v, r') := r.next
  ((v : Int) * p.den < p.num * 2 ^ 31, r')

/-- The configured detection probability constant `p_ship` (design default 1,
§4.1, §9). -/
def pShip : ℚ := 1

/-- Modelled from the spec: the per-position "present" probability (§4.1):
`p_ship` for layout positions, `p_miss = 0` elsewhere. -/
def presentProbability (layout : List Nat) (i : Nat) : ℚ :=
  if i ∈ layout then pShip else 0

/-- One Bernoulli trial per listed position, in order. -/
def sampleOver (layout : List Nat) : List Nat → Rng → List Bool × Rng
  | [], r => ([], r)
  | i :: is, r =>
    let (b, r') := bernoulli (presentProbability layout i) r
    let (bs, r'') := sampleOver layout is r'
    (b :: bs, r'')

/-- One full shot: an N-bit observation vector over positions `0..gridSize-1`. -/
def sampleShot (layout : List Nat) (r : Rng) : List Bool × Rng :=
  sampleOver layout (List.range gridSize) r

/-- Modelled from the spec: draw `shots` independent full observations (§4.1). -/
def sampleShots (layout : List Nat) : Nat → Rng → List (List Bool) × Rng
  | 0, r => ([], r)
  | n + 1, r =>
    let (s, r') := sampleShot layout r
    let (ss, r'') := sampleShots layout n r'
    (s :: ss, r'')

/-- Number of shots that observed "present" at position `i`. -/
def countPresent (samples : List (List Bool)) (i : Nat) : Nat :=
  (samples.filter fun s => s.getD i false).length

/-- Modelled from the spec: the histogram keyed by the full N-bit observation
vector (§4.1): each distinct observed vector with its multiplicity. -/
def histogram (samples : List (List Bool)) : List (List Bool × Nat) :=
  haveI : BEq (List Bool) := instBEqOfDecidableEq
  samples.dedup.map fun k => (k, samples.count k)

/-- Modelled from the spec: the outcome of simulating one bomb action (§3):
per-position empirical probabilities, the sample histogram, the shot count and
the probability measured at the targeted position. -/
structure MeasurementResult where
  probabilities : List ℚ
  counts : List (List Bool × Nat)
  totalShots : Nat
  targetProbability : ℚ
deriving DecidableEq

/-- Modelled from the spec: the Measurement Simulator contract
`measure(layout, target, shots)` of `app_quantum.py` (backend absent from the
source tree), §4.1: reject an out-of-range target with `InvalidPosition` and a
zero shot count with `InvalidConfiguration` before any simulation; otherwise
sample, tally the histogram, and report empirical probabilities
`count / shots`. -/
def measure (layout : List Nat) (target : Nat) (shots : Nat) (seed : Nat) :
    Except GameError MeasurementResult :=
  if gridSize ≤ target then .error .invalidPosition
  else if shots = 0 then .error .invalidConfiguration
  else
    let samples := (sampleShots layout shots (Rng.ofSeed seed)).1
    let probs := (List.range gridSize).map
      fun i => (countPresent samples i : ℚ) / shots
    .ok ⟨probs, histogram samples, shots, probs.getD target 0⟩

/-- The samples a successful `measure` call draws. -/
def measureSamples (layout : List Nat) (shots : Nat) (seed : Nat) :
    List (List Bool) :=
  (sampleShots layout shots (Rng.ofSeed seed)).1

/-- The probability vector a successful `measure` call reports. -/
def measureProbs (layout : List Nat) (shots : Nat) (seed : Nat) : List ℚ :=
  (List.range gridSize).map
    fun i => (countPresent (measureSamples layout shots seed) i : ℚ) / shots

/-- A concrete successful measurement, used to witness the claims about the
Measurement Simulator: layout `[0, 2, 4]`, target 1, 2 shots, seed 3. -/
def measureSampleResult : MeasurementResult :=
  (measure [0, 2, 4] 1 2 3).toOption.getD ⟨[], [], 0, 0⟩

/-- Modelled from the spec: the session phases (§4.3):
`AwaitingLayouts → InProgress → Finished`. -/
inductive Phase where
  | awaitingLayouts
  | inProgress
  | finished
deriving DecidableEq

/-- Modelled from the spec: an immutable bomb log entry (§3): acting player,
target, measurement result, damage delta, damage snapshot, round number. -/
structure BombRecord where
  actingPlayer : Player
  target : Nat
  result : MeasurementResult
  damageDelta : ℚ
  damageSnapshot : List ℚ
  roundNumber : Nat
deriving DecidableEq

/-- Modelled from the spec: a game session (§3): two write-once layouts, two
damage arrays (damage inflicted ON each player's fleet), bomb history, round
counter, phase tag and optional winner. -/
structure GameSession where
  layout1 : Option (List Nat)
  layout2 : Option (List Nat)
  damage1 : List ℚ
  damage2 : List ℚ
  history : List BombRecord
  round : Nat
  phase : Phase
  winner : Option Player
deriving DecidableEq

/-- A freshly created session: no layouts, zero damage, empty history. -/
def newSession : GameSession :=
  ⟨none, none, initialDamage, initialDamage, [], 0, .awaitingLayouts, none⟩

/-- The committed layout of a player, if any. -/
def GameSession.layoutOf (s : GameSession) : Player → Option (List Nat)
  | .one => s.layout1
  | .two => s.layout2

/-- The damage inflicted on a player's fleet. -/
def GameSession.damageOf (s : GameSession) : Player → List ℚ
  | .one => s.damage1
  | .two => s.damage2

/-- All positions of a layout have reached the destruction threshold 95. -/
def allDestroyed (layout : List Nat) (damage : List ℚ) : Prop :=
  ∀ p ∈ layout, 95 ≤ damage.getD p 0

instance (layout : List Nat) (damage : List ℚ) :
    Decidable (allDestroyed layout damage) := by
  unfold allDestroyed; infer_instance

/-- A player's fleet is fully destroyed in a session. -/
def GameSession.fleetDestroyed (s : GameSession) (pl : Player) : Prop :=
  ∃ l, s.layoutOf pl = some l ∧ allDestroyed l (s.damageOf pl)

/-- Modelled from the spec: the `set_layout` action (§4.3, §6, §7): only
accepted in `AwaitingLayouts` (later phases answer `InvalidState`); the
positions must be exactly 3 distinct in-range values (else
`InvalidShipPlacement`, with no state change); re-submission overwrites the
pending layout; the phase moves to `InProgress` once both layouts are
committed. -/
def GameSession.setLayout (s : GameSession) (player : Player)
    (positions : List Nat) : Except GameError GameSession :=
  if s.phase ≠ .awaitingLayouts then .error .invalidState
  else if validLayout positions then
    let s' := match player with
      | .one => { s with layout1 := some positions }
      | .two => { s with layout2 := some positions }
    .ok { s' with phase :=
      if s'.layout1.isSome && s'.layout2.isSome then .inProgress
      else .awaitingLayouts }
  else .error .invalidShipPlacement

/-- Modelled from the spec: the `bomb` action (§4.3): rejected with
`InvalidState` outside `InProgress` (in particular once `Finished`); the
Measurement Simulator rejects an out-of-range target with `InvalidPosition`
before simulating; otherwise the opponent's layout is measured, the Damage
Accumulator updates the opponent's damage array, a BombRecord is appended, the
round counter is incremented, and the win condition is evaluated: when all of
the opponent's positions reach damage ≥ 95 the session becomes `Finished` with
the acting player as winner. -/
def GameSession.bomb (s : GameSession) (player : Player) (target : Nat)
    (shots : Nat) (seed : Nat) :
    Except GameError (GameSession × MeasurementResult) :=
  if s.phase ≠ .inProgress then .error .invalidState
  else
    let oppLayout := (s.layoutOf player.opponent).getD []
    match measure oppLayout target shots seed with
    | .error e => .error e
    | .ok m =>
      let oldDamage := s.damageOf player.opponent
      let newDamage := applyDamage oldDamage target m.targetProbability
      let record : BombRecord :=
        ⟨player, target, m,
          newDamage.getD target 0 - oldDamage.getD target 0,
          newDamage, s.round + 1⟩
      let s' := match player with
        | .one => { s with damage2 := newDamage }
        | .two => { s with damage1 := newDamage }
      let s'' := { s' with history := s.history ++ [record],
                           round := s.round + 1 }
      if allDestroyed oppLayout newDamage then
        .ok ({ s'' with phase := .finished, winner := some player }, m)
      else
        .ok (s'', m)

/-- One externally requested mutating action on a session. -/
inductive Action where
  | setLayout (player : Player) (positions : List Nat)
  | bomb (player : Player) (target : Nat) (shots : Nat) (seed : Nat)

/-- Run one action against a session: a failed action leaves the session
unchanged (spec §7: all validation failures are rejected atomically). -/
def step (s : GameSession) : Action → GameSession
  | .setLayout player positions =>
    match s.setLayout player positions with
    | .ok s' => s'
    | .error _ => s
  | .bomb player target shots seed =>
    match s.bomb player target shots seed with
    | .ok (s', _) => s'
    | .error _ => s

/-- Run a sequence of actions against a fresh session. -/
def run (acts : List Action) : GameSession := acts.foldl step newSession

/-- A damage array is well formed: five entries, each in `[0, 100]`. -/
def damageInv (d : List ℚ) : Prop :=
  d.length = gridSize ∧ ∀ q ∈ d, 0 ≤ q ∧ q ≤ 100

/-- A layout field is well formed: absent, or a valid layout. -/
def layoutInv : Option (List Nat) → Prop
  | none => True
  | some l => validLayout l

/-- The session invariant maintained by every reachable state. -/
def Inv (s : GameSession) : Prop :=
  (∀ pl, damageInv (s.damageOf pl)) ∧
    (∀ pl, layoutInv (s.layoutOf pl)) ∧
    (s.phase = .awaitingLayouts → ∀ pl, s.damageOf pl = initialDamage) ∧
    (s.phase ≠ .awaitingLayouts → ∀ pl, (s.layoutOf pl).isSome) ∧
    (s.phase ≠ .finished → ∀ pl, ¬ s.fleetDestroyed pl) ∧
    (s.phase = .finished →
      ∃ w, s.winner = some w ∧ s.fleetDestroyed w.opponent)

/-- Modelled from the spec: the per-player filtered snapshot that
`get_state(id, viewer)` of `app_quantum.py` (backend absent from the source
tree) returns (§4.4, §6): own layout, both damage arrays, round, game-over
flag and winner — and not the opponent's raw layout. -/
structure StateView where
  currentRound : Nat
  gameOver : Bool
  winner : Option Player
  ownShips : Option (List Nat)
  damage1 : List ℚ
  damage2 : List ℚ
deriving DecidableEq

/-- Modelled from the spec: the read path `get_state` (§4.4, §6). -/
def GameSession.getState (s : GameSession) (viewer : Player) : StateView :=
  { currentRound := s.round
    gameOver := s.phase = .finished
    winner := s.winner
    ownShips := s.layoutOf viewer
    damage1 := s.damage1
    damage2 := s.damage2 }

/-- Replace one player's layout field, leaving everything else unchanged. -/
def setLayoutField (s : GameSession) (pl : Player) (l : Option (List Nat)) :
    GameSession :=
  match pl with
  | .one => { s with layout1 := l }
  | .two => { s with layout2 := l }

/-- Embeds `getCellClass` of `src/components/Grid.tsx`: the CSS classes of a
grid cell: base class `quantum-cell`; `has-ship` when in the setup phase and
the cell is in `playerShips`; `selected` when the cell is the selected
position; then, when the cell's damage is positive, exactly one of
`destroyed` (damage ≥ 95), `critical` (damage ≥ 50) or `damaged`. -/
def getCellClass (isSetupPhase : Bool) (playerShips : List Nat)
    (selectedPosition : Option Nat) (opponentDamage : List ℚ)
    (position : Nat) : List String :=
  let shipClasses :=
    if isSetupPhase && playerShips.contains position then ["has-ship"] else []
  let selectedClasses :=
    if selectedPosition = some position then ["selected"] else []
  let damage := opponentDamage.getD position 0
  let damageClasses :=
    if 0 < damage then
      if 95 ≤ damage then ["destroyed"]
      else if 50 ≤ damage then ["critical"]
      else ["damaged"]
    else []
  "quantum-cell" :: (shipClasses ++ selectedClasses ++ damageClasses)

/-- Embeds the player's own destroyed-ship report of the quantum stats panel
(`src/App.tsx`, `playerShips.filter(pos => playerDamage[pos] >= 95)`): the own
ship positions whose damage reached 95. -/
def ownDestroyedPositions (playerShips : List Nat) (playerDamage : List ℚ) :
    List Nat :=
  playerShips.filter fun pos => decide (95 ≤ playerDamage.getD pos 0)

/-- Embeds `Your Ships Destroyed` of the quantum stats panel (`src/App.tsx`). -/
def playerShipsDestroyedCount (playerShips : List Nat)
    (playerDamage : List ℚ) : Nat :=
  (ownDestroyedPositions playerShips playerDamage).length

/-- Embeds `Enemy Ships Destroyed` of the quantum stats panel (`src/App.tsx`,
`opponentDamage.filter(d => d >= 95)`): every damage entry that reached 95 is
counted, with no ship-membership check. -/
def enemyShipsDestroyedCount (opponentDamage : List ℚ) : Nat :=
  (opponentDamage.filter fun d => decide (95 ≤ d)).length

/-- Embeds the setup-phase branch of `handleCellClick` (`src/App.tsx`):
clicking an already-selected position deselects it; otherwise, with fewer than
3 positions selected, the position is appended; the commit flag (the
`setShips` + `autoSetup` calls) fires exactly when the new list reaches
length 3. -/
def setupClick (selectedPositions : List Nat) (position : Nat) :
    List Nat × Bool :=
  if position ∈ selectedPositions then
    (selectedPositions.filter fun p => decide (p ≠ position), false)
  else if selectedPositions.length < 3 then
    let newPositions := selectedPositions ++ [position]
    (newPositions, newPositions.length = 3)
  else (selectedPositions, false)

/-- The selected-positions list after a sequence of setup-phase clicks,
starting from the initial empty selection. -/
def runSetup (clicks : List Nat) : List Nat :=
  clicks.foldl (fun sel pos => (setupClick sel pos).1) []

/-- The five actions of the winning scenario: both players commit layouts,
then player one bombs each of player two's positions once (1 shot each). -/
def winActs : List Action :=
  [.setLayout .one [0, 2, 4], .setLayout .two [1, 3, 4],
    .bomb .one 1 1 5, .bomb .one 3 1 6, .bomb .one 4 1 7]

/-- The measurement observed by a winning-scenario bomb: one shot against
layout `[1, 3, 4]`. -/
def bombMeasurement (target seed : Nat) : MeasurementResult :=
  (measure [1, 3, 4] target 1 seed).toOption.getD ⟨[], [], 0, 0⟩

/-- The winning-scenario session once both layouts are committed. -/
def bothLayoutsSession : GameSession :=
  ⟨some [0, 2, 4], some [1, 3, 4], [0, 0, 0, 0, 0], [0, 0, 0, 0, 0], [], 0,
    .inProgress, none⟩

/-- The winning-scenario session after the first bomb (position 1). -/
def sessionAfterBombOne : GameSession :=
  ⟨some [0, 2, 4], some [1, 3, 4], [0, 0, 0, 0, 0], [0, 100, 0, 0, 0],
    [⟨.one, 1, bombMeasurement 1 5, 100 - 0, [0, 100, 0, 0, 0], 1⟩], 1,
    .inProgress, none⟩

/-- The winning-scenario session after the second bomb (position 3). -/
def sessionAfterBombTwo : GameSession :=
  ⟨some [0, 2, 4], some [1, 3, 4], [0, 0, 0, 0, 0], [0, 100, 0, 100, 0],
    [⟨.one, 1, bombMeasurement 1 5, 100 - 0, [0, 100, 0, 0, 0], 1⟩,
      ⟨.one, 3, bombMeasurement 3 6, 100 - 0, [0, 100, 0, 100, 0], 2⟩], 2,
    .inProgress, none⟩

end QuantumBattleship

namespace QuantumBattleship

theorem applyDamage_length (damage : List ℚ) (target : Nat) (p : ℚ) :
    (applyDamage damage target p).length = damage.length := by
  simp [applyDamage]

theorem applyDamage_getD_target (damage : List ℚ) (target : Nat) (p : ℚ)
    (ht : target < damage.length) :
    (applyDamage damage target p).getD target 0 =
      min 100 (damage.getD target 0 + p * 100) := by
  simp [applyDamage, List.getD_eq_getElem?_getD, List.getElem?_set_self ht]

theorem applyDamage_getD_other (damage : List ℚ) (target : Nat) (p : ℚ)
    (i : Nat) (hi : i ≠ target) :
    (applyDamage damage target p).getD i 0 = damage.getD i 0 := by
  simp [applyDamage, List.getD_eq_getElem?_getD, List.getElem?_set_ne (Ne.symm hi)]

/-- Claim C1: for every damage state, target position in `[0, 5)` and measured
probability `p ∈ [0, 1]`, the Damage Accumulator's apply operation returns a
state whose entry at the target equals `min(100, old + p * 100)` and whose
every other entry is unchanged. -/
theorem damage_accumulator_apply_spec (damage : List ℚ) (target : Nat)
    (p : ℚ) (hlen : damage.length = gridSize) (ht : target < gridSize)
    (hp0 : 0 ≤ p) (hp1 : p ≤ 1) :
    (applyDamage damage target p).getD target 0 =
        min 100 (damage.getD target 0 + p * 100) ∧
      ∀ i, i ≠ target →
        (applyDamage damage target p).getD i 0 = damage.getD i 0 := by
  refine ⟨applyDamage_getD_target damage target p (by omega), ?_⟩
  intro i hi
  exact applyDamage_getD_other damage target p i hi

/-- Witness for C1 at a concrete input: damage `[10, 20, 0, 0, 0]`, target 1,
probability 1/2 yields the clamped sum at the target and leaves position 0
unchanged. -/
theorem damage_accumulator_apply_spec_witness :
    (applyDamage [10, 20, 0, 0, 0] 1 (1/2)).getD 1 0 =
        min 100 (([10, 20, 0, 0, 0] : List ℚ).getD 1 0 + (1/2) * 100) ∧
      (applyDamage [10, 20, 0, 0, 0] 1 (1/2)).getD 0 0 =
        ([10, 20, 0, 0, 0] : List ℚ).getD 0 0 := by
  have h := damage_accumulator_apply_spec [10, 20, 0, 0, 0] 1 (1/2)
    (by decide) (by decide) (by norm_num) (by norm_num)
  exact ⟨h.1, h.2 0 (by decide)⟩

theorem sampleOver_length (layout : List Nat) (is : List Nat) (r : Rng) :
    (sampleOver layout is r).1.length = is.length := by
  induction is generalizing r with
  | nil => rfl
  | cons i is ih => simp [sampleOver, ih]

theorem sampleShots_length (layout : List Nat) (shots : Nat) (r : Rng) :
    (sampleShots layout shots r).1.length = shots := by
  induction shots generalizing r with
  | zero => rfl
  | succ n ih => simp [sampleShots, ih]

theorem countPresent_le (samples : List (List Bool)) (i : Nat) :
    countPresent samples i ≤ samples.length :=
  List.length_filter_le _ _

theorem histogram_counts_sum (samples : List (List Bool)) :
    ((histogram samples).map Prod.snd).sum = samples.length := by
  unfold histogram
  rw [List.map_map]
  simp only [Function.comp_def]
  exact List.sum_map_count_dedup_eq_length samples

theorem measure_ok_inv {layout : List Nat} {target shots seed : Nat}
    {m : MeasurementResult} (h : measure layout target shots seed = .ok m) :
    target < gridSize ∧ shots ≠ 0 ∧
      m = ⟨measureProbs layout shots seed,
        histogram (measureSamples layout shots seed), shots,
        (measureProbs layout shots seed).getD target 0⟩ := by
  unfold measure at h
  split at h
  · exact absurd h (by simp)
  · split at h
    · exact absurd h (by simp)
    · rename_i h1 h2
      refine ⟨by omega, h2, ?_⟩
      exact (Except.ok.inj h).symm

theorem measureProbs_mem_bounds {layout : List Nat} {shots seed : Nat}
    (hs : shots ≠ 0) {p : ℚ} (hp : p ∈ measureProbs layout shots seed) :
    0 ≤ p ∧ p ≤ 1 := by
  unfold measureProbs at hp
  obtain ⟨i, _, rfl⟩ := List.mem_map.mp hp
  have hle : countPresent (measureSamples layout shots seed) i ≤ shots := by
    have h1 := countPresent_le (measureSamples layout shots seed) i
    have h2 := sampleShots_length layout shots (Rng.ofSeed seed)
    unfold measureSamples at h1 ⊢
    omega
  have hshots : (0 : ℚ) < shots := by
    exact_mod_cast Nat.pos_of_ne_zero hs
  constructor
  · positivity
  · rw [div_le_one hshots]
    exact_mod_cast hle

/-- Claim C6: every MeasurementResult returned by a successful measure call has
all per-position probabilities in `[0, 1]`, and its sample-histogram counts sum
exactly to the configured shot count. -/
theorem measurement_result_valid (layout : List Nat) (target shots seed : Nat)
    (m : MeasurementResult) (h : measure layout target shots seed = .ok m) :
    (∀ p ∈ m.probabilities, 0 ≤ p ∧ p ≤ 1) ∧
      (m.counts.map Prod.snd).sum = shots ∧ m.totalShots = shots := by
  obtain ⟨-, hs, rfl⟩ := measure_ok_inv h
  refine ⟨fun p hp => measureProbs_mem_bounds hs hp, ?_, rfl⟩
  have h1 := histogram_counts_sum (measureSamples layout shots seed)
  have h2 := sampleShots_length layout shots (Rng.ofSeed seed)
  unfold measureSamples at h1
  simpa [measureSamples, h2] using h1

theorem measureSampleResult_eq :
    measure [0, 2, 4] 1 2 3 = .ok measureSampleResult := rfl

/-- Witness for C6: the concrete call `measure [0, 2, 4] 1 2 3` succeeds, its
probabilities all lie in `[0, 1]`, and its histogram counts sum to 2. -/
theorem measurement_result_valid_witness :
    measure [0, 2, 4] 1 2 3 = .ok measureSampleResult ∧
      ((∀ p ∈ measureSampleResult.probabilities, 0 ≤ p ∧ p ≤ 1) ∧
        (measureSampleResult.counts.map Prod.snd).sum = 2 ∧
        measureSampleResult.totalShots = 2) :=
  ⟨measureSampleResult_eq,
    measurement_result_valid [0, 2, 4] 1 2 3 measureSampleResult
      measureSampleResult_eq⟩

theorem Player.opponent_opponent (pl : Player) : pl.opponent.opponent = pl := by
  cases pl <;> rfl

theorem Player.eq_or_eq_opponent (pl q : Player) : pl = q ∨ pl = q.opponent := by
  cases pl <;> cases q <;> simp [Player.opponent]

theorem damageInv_initial : damageInv initialDamage := by
  refine ⟨rfl, ?_⟩
  intro q hq
  rw [List.eq_of_mem_replicate hq]
  norm_num

theorem initialDamage_getD (i : Nat) : initialDamage.getD i 0 = 0 := by
  unfold initialDamage
  rw [List.getD_eq_getElem?_getD, List.getElem?_replicate]
  by_cases h : i < gridSize <;> simp [h]

theorem damageInv_getD_bounds {d : List ℚ} (h : damageInv d) (i : Nat) :
    0 ≤ d.getD i 0 ∧ d.getD i 0 ≤ 100 := by
  by_cases hi : i < d.length
  · have hm : d.getD i 0 ∈ d := by
      rw [List.getD_eq_getElem?_getD, List.getElem?_eq_getElem hi]
      exact List.getElem_mem hi
    exact h.2 _ hm
  · rw [List.getD_eq_default _ _ (by omega)]
    norm_num

theorem applyDamage_damageInv {d : List ℚ} {p : ℚ} (h : damageInv d)
    (hp : 0 ≤ p) (target : Nat) : damageInv (applyDamage d target p) := by
  obtain ⟨hlen, hmem⟩ := h
  refine ⟨by rw [applyDamage_length, hlen], ?_⟩
  intro q hq
  rcases List.mem_or_eq_of_mem_set hq with hq' | rfl
  · exact hmem q hq'
  · have h0 := damageInv_getD_bounds ⟨hlen, hmem⟩ target
    have hp100 : 0 ≤ p * 100 := by positivity
    constructor
    · exact le_min (by norm_num) (by linarith [h0.1])
    · exact min_le_left _ _

theorem applyDamage_getD_mono {d : List ℚ} {p : ℚ} (h : damageInv d)
    (hp : 0 ≤ p) (target i : Nat) :
    d.getD i 0 ≤ (applyDamage d target p).getD i 0 := by
  by_cases hit : i = target
  · subst hit
    by_cases hlt : i < d.length
    · rw [applyDamage_getD_target d i p hlt]
      have hb := damageInv_getD_bounds h i
      have hp100 : 0 ≤ p * 100 := by positivity
      exact le_min hb.2 (by linarith)
    · unfold applyDamage
      rw [List.set_eq_of_length_le (by omega)]
  · rw [applyDamage_getD_other d target p i hit]

theorem not_allDestroyed_initial {l : List Nat} (hl : validLayout l) :
    ¬ allDestroyed l initialDamage := by
  intro h
  obtain ⟨hlen, -, -⟩ := hl
  obtain ⟨p, hp⟩ : ∃ p, p ∈ l := by
    cases l with
    | nil => simp at hlen
    | cons a _ => exact ⟨a, by simp⟩
  have h95 := h p hp
  rw [initialDamage_getD] at h95
  norm_num at h95

theorem measure_targetProb_bounds {layout : List Nat} {target shots seed : Nat}
    {m : MeasurementResult} (h : measure layout target shots seed = .ok m) :
    0 ≤ m.targetProbability ∧ m.targetProbability ≤ 1 := by
  obtain ⟨ht, hs, rfl⟩ := measure_ok_inv h
  apply measureProbs_mem_bounds hs
  have htl : target < (measureProbs layout shots seed).length := by
    simp only [measureProbs, List.length_map, List.length_range]
    exact ht
  have hget : (measureProbs layout shots seed).getD target 0 =
      (measureProbs layout shots seed).get ⟨target, htl⟩ := by
    rw [List.getD_eq_getElem?_getD, List.getElem?_eq_getElem htl]
    rfl
  rw [hget]
  exact List.get_mem _ target htl

theorem setLayout_ok_anatomy {s : GameSession} {player : Player}
    {positions : List Nat} {s' : GameSession}
    (h : s.setLayout player positions = .ok s') :
    s.phase = .awaitingLayouts ∧ validLayout positions ∧
      (∀ pl, s'.damageOf pl = s.damageOf pl) ∧
      s'.history = s.history ∧ s'.round = s.round ∧ s'.winner = s.winner ∧
      s'.layoutOf player = some positions ∧
      s'.layoutOf player.opponent = s.layoutOf player.opponent ∧
      s'.phase = (if (s'.layoutOf .one).isSome && (s'.layoutOf .two).isSome
        then Phase.inProgress else Phase.awaitingLayouts) := by
  cases player
  all_goals
    unfold GameSession.setLayout at h
    split at h
    case isTrue => exact absurd h (by simp)
    case isFalse hph =>
      rw [not_ne_iff] at hph
      split at h
      case isFalse => exact absurd h (by simp)
      case isTrue hval =>
        obtain rfl := Except.ok.inj h
        exact ⟨hph, hval, fun pl => by cases pl <;> rfl, rfl, rfl, rfl,
          rfl, rfl, rfl⟩

theorem bomb_ok_anatomy {s : GameSession} {player : Player}
    {target shots seed : Nat} {s' : GameSession} {m : MeasurementResult}
    (h : s.bomb player target shots seed = .ok (s', m)) :
    s.phase = .inProgress ∧
      measure ((s.layoutOf player.opponent).getD []) target shots seed =
        .ok m ∧
      s'.damageOf player.opponent =
        applyDamage (s.damageOf player.opponent) target m.targetProbability ∧
      s'.damageOf player = s.damageOf player ∧
      (∀ pl, s'.layoutOf pl = s.layoutOf pl) ∧
      ((allDestroyed ((s.layoutOf player.opponent).getD [])
            (applyDamage (s.damageOf player.opponent) target
              m.targetProbability) ∧
          s'.phase = .finished ∧ s'.winner = some player) ∨
        (¬ allDestroyed ((s.layoutOf player.opponent).getD [])
            (applyDamage (s.damageOf player.opponent) target
              m.targetProbability) ∧
          s'.phase = s.phase ∧ s'.winner = s.winner)) := by
  cases player
  all_goals
    simp only [GameSession.bomb] at h
    split at h
    case isTrue => exact absurd h (by simp)
    case isFalse hph =>
      rw [not_ne_iff] at hph
      split at h
      case h_1 => exact absurd h (by simp)
      case h_2 m' hm' =>
        split at h
        case isTrue hdest =>
          injection h with h1
          injection h1 with h1 h2
          subst h2
          subst h1
          exact ⟨hph, hm', rfl, rfl, fun pl => by cases pl <;> rfl,
            Or.inl ⟨hdest, rfl, rfl⟩⟩
        case isFalse hdest =>
          injection h with h1
          injection h1 with h1 h2
          subst h2
          subst h1
          exact ⟨hph, hm', rfl, rfl, fun pl => by cases pl <;> rfl,
            Or.inr ⟨hdest, rfl, rfl⟩⟩

theorem setLayout_ok_inv {s : GameSession} {player : Player}
    {positions : List Nat} {s' : GameSession} (hInv : Inv s)
    (h : s.setLayout player positions = .ok s') : Inv s' := by
  obtain ⟨hdmg, hlay, hawait, hsome, hnotfin, hfin⟩ := hInv
  obtain ⟨hph, hval, hD, hH, hR, hW, hLp, hLo, hPh⟩ := setLayout_ok_anatomy h
  have hdmg' : ∀ pl, s'.damageOf pl = initialDamage := by
    intro pl
    rw [hD pl]
    exact hawait hph pl
  have hlay' : ∀ pl, layoutInv (s'.layoutOf pl) := by
    intro pl
    rcases Player.eq_or_eq_opponent pl player with rfl | rfl
    · rw [hLp]; exact hval
    · rw [hLo]; exact hlay _
  have hnotdest : ∀ pl, ¬ s'.fleetDestroyed pl := by
    intro pl hcon
    obtain ⟨l, hl, hdest⟩ := hcon
    have hlv : validLayout l := by
      have hli := hlay' pl
      rw [hl] at hli
      exact hli
    rw [hdmg' pl] at hdest
    exact not_allDestroyed_initial hlv hdest
  refine ⟨?_, hlay', ?_, ?_, ?_, ?_⟩
  · intro pl
    rw [hdmg' pl]
    exact damageInv_initial
  · intro _ pl
    exact hdmg' pl
  · intro hne
    by_cases hcond : (s'.layoutOf .one).isSome && (s'.layoutOf .two).isSome
    · rw [Bool.and_eq_true] at hcond
      intro pl
      cases pl
      · exact hcond.1
      · exact hcond.2
    · rw [hPh, if_neg hcond] at hne
      exact absurd rfl hne
  · intro _
    exact hnotdest
  · intro hfin'
    rw [hPh] at hfin'
    split at hfin' <;> exact absurd hfin' (by decide)

theorem bomb_ok_inv {s : GameSession} {player : Player}
    {target shots seed : Nat} {s' : GameSession} {m : MeasurementResult}
    (hInv : Inv s) (h : s.bomb player target shots seed = .ok (s', m)) :
    Inv s' := by
  obtain ⟨hdmg, hlay, hawait, hsome, hnotfin, hfin⟩ := hInv
  obtain ⟨hph, hm, hDopp, hDown, hL, hbr⟩ := bomb_ok_anatomy h
  have hpb := measure_targetProb_bounds hm
  have hdmg' : ∀ pl, damageInv (s'.damageOf pl) := by
    intro pl
    rcases Player.eq_or_eq_opponent pl player with rfl | rfl
    · rw [hDown]; exact hdmg _
    · rw [hDopp]; exact applyDamage_damageInv (hdmg _) hpb.1 _
  have hlay' : ∀ pl, layoutInv (s'.layoutOf pl) := by
    intro pl
    rw [hL pl]
    exact hlay pl
  have hsome' : ∀ pl, (s'.layoutOf pl).isSome := by
    intro pl
    rw [hL pl]
    exact hsome (by rw [hph]; decide) pl
  obtain ⟨oppL, hoppL⟩ : ∃ l, s.layoutOf player.opponent = some l :=
    Option.isSome_iff_exists.mp (hsome (by rw [hph]; decide) player.opponent)
  have hgetD : (s.layoutOf player.opponent).getD [] = oppL := by
    rw [hoppL]
    rfl
  rcases hbr with ⟨hdest, hph', hwin'⟩ | ⟨hndest, hph', hwin'⟩
  · refine ⟨hdmg', hlay', ?_, ?_, ?_, ?_⟩
    · intro hA
      rw [hph'] at hA
      exact absurd hA (by decide)
    · intro _
      exact hsome'
    · intro hne
      rw [hph'] at hne
      exact absurd rfl hne
    · intro _
      refine ⟨player, hwin', oppL, ?_, ?_⟩
      · rw [hL player.opponent, hoppL]
      · rw [hDopp]
        rw [hgetD] at hdest
        exact hdest
  · refine ⟨hdmg', hlay', ?_, ?_, ?_, ?_⟩
    · intro hA
      rw [hph', hph] at hA
      exact absurd hA (by decide)
    · intro _
      exact hsome'
    · intro _ pl hcon
      obtain ⟨l, hl, hdest⟩ := hcon
      rw [hL] at hl
      rcases Player.eq_or_eq_opponent pl player with rfl | rfl
      · rw [hDown] at hdest
        exact hnotfin (by rw [hph]; decide) pl ⟨l, hl, hdest⟩
      · rw [hoppL] at hl
        obtain rfl := Option.some.inj hl
        rw [hDopp] at hdest
        rw [hgetD] at hndest
        exact hndest hdest
    · intro hfin'
      rw [hph', hph] at hfin'
      exact absurd hfin' (by decide)

theorem step_setLayout (s : GameSession) (player : Player)
    (positions : List Nat) :
    step s (.setLayout player positions) =
      match s.setLayout player positions with
      | .ok s' => s'
      | .error _ => s := rfl

theorem step_bomb (s : GameSession) (player : Player)
    (target shots seed : Nat) :
    step s (.bomb player target shots seed) =
      match s.bomb player target shots seed with
      | .ok (s', _) => s'
      | .error _ => s := rfl

theorem inv_newSession : Inv newSession := by
  refine ⟨?_, ?_, ?_, ?_, ?_, ?_⟩
  · intro pl
    cases pl <;> exact damageInv_initial
  · intro pl
    cases pl <;> trivial
  · intro _ pl
    cases pl <;> rfl
  · intro hne
    exact absurd rfl hne
  · intro _ pl hcon
    obtain ⟨l, hl, -⟩ := hcon
    cases pl <;> exact Option.noConfusion hl
  · intro hfin'
    exact absurd hfin' (by decide)

theorem inv_step {s : GameSession} (hInv : Inv s) (a : Action) :
    Inv (step s a) := by
  cases a with
  | setLayout player positions =>
    rw [step_setLayout]
    cases hc : s.setLayout player positions with
    | ok s' => exact setLayout_ok_inv hInv hc
    | error e => exact hInv
  | bomb player target shots seed =>
    rw [step_bomb]
    cases hc : s.bomb player target shots seed with
    | ok pr =>
      obtain ⟨s', m⟩ := pr
      exact bomb_ok_inv hInv hc
    | error e => exact hInv

theorem inv_run_aux (acts : List Action) (s : GameSession) (hInv : Inv s) :
    Inv (acts.foldl step s) := by
  induction acts generalizing s with
  | nil => exact hInv
  | cons a acts ih => exact ih _ (inv_step hInv a)

theorem inv_run (acts : List Action) : Inv (run acts) :=
  inv_run_aux acts newSession inv_newSession

theorem step_damage_mono {s : GameSession} (hInv : Inv s) (a : Action)
    (pl : Player) (i : Nat) :
    (s.damageOf pl).getD i 0 ≤ ((step s a).damageOf pl).getD i 0 := by
  cases a with
  | setLayout player positions =>
    rw [step_setLayout]
    cases hc : s.setLayout player positions with
    | ok s' =>
      obtain ⟨-, -, hD, -⟩ := setLayout_ok_anatomy hc
      show (s.damageOf pl).getD i 0 ≤ (s'.damageOf pl).getD i 0
      rw [hD pl]
    | error e => exact le_rfl
  | bomb player target shots seed =>
    rw [step_bomb]
    cases hc : s.bomb player target shots seed with
    | ok pr =>
      obtain ⟨s', m⟩ := pr
      obtain ⟨-, hm, hDopp, hDown, -⟩ := bomb_ok_anatomy hc
      show (s.damageOf pl).getD i 0 ≤ (s'.damageOf pl).getD i 0
      rcases Player.eq_or_eq_opponent pl player with rfl | rfl
      · rw [hDown]
      · rw [hDopp]
        exact applyDamage_getD_mono (hInv.1 _)
          (measure_targetProb_bounds hm).1 _ _
    | error e => exact le_rfl

/-- Claim C2: after any sequence of set-layout and bomb operations on a fresh
session, every damage entry of either fleet lies in `[0, 100]`, and a further
action (in particular a successful bomb) never decreases any damage entry. -/
theorem damage_bounds_monotone (acts : List Action) :
    (∀ pl : Player, ∀ i : Nat,
        0 ≤ ((run acts).damageOf pl).getD i 0 ∧
          ((run acts).damageOf pl).getD i 0 ≤ 100) ∧
      ∀ a : Action, ∀ pl : Player, ∀ i : Nat,
        ((run acts).damageOf pl).getD i 0 ≤
          ((step (run acts) a).damageOf pl).getD i 0 := by
  have hInv := inv_run acts
  exact ⟨fun pl i => damageInv_getD_bounds (hInv.1 pl) i,
    fun a pl i => step_damage_mono hInv a pl i⟩

/-- Claim C3: for every reachable session state, the game is over exactly when
some player's whole fleet has damage ≥ 95; in that case the recorded winner is
the player opposing the destroyed fleet, and every further mutating call fails
with `InvalidState`, leaving the state unchanged. -/
theorem win_consistency (acts : List Action) :
    ((run acts).phase = .finished ↔
        (run acts).fleetDestroyed .one ∨ (run acts).fleetDestroyed .two) ∧
      ((run acts).phase = .finished →
        (∃ w, (run acts).winner = some w ∧
            (run acts).fleetDestroyed w.opponent) ∧
          (∀ player positions,
            (run acts).setLayout player positions = .error .invalidState) ∧
          (∀ player target shots seed,
            (run acts).bomb player target shots seed =
              .error .invalidState) ∧
          ∀ a, step (run acts) a = run acts) := by
  obtain ⟨hdmg, hlay, hawait, hsome, hnotfin, hfin⟩ := inv_run acts
  constructor
  · constructor
    · intro hf
      obtain ⟨w, -, hdest⟩ := hfin hf
      cases w
      · exact Or.inr hdest
      · exact Or.inl hdest
    · intro hd
      by_contra hne
      rcases hd with h1 | h2
      · exact hnotfin hne .one h1
      · exact hnotfin hne .two h2
  · intro hf
    have hsl : ∀ player positions,
        (run acts).setLayout player positions = .error .invalidState := by
      intro player positions
      unfold GameSession.setLayout
      rw [if_pos (by rw [hf]; decide)]
    have hbd : ∀ player target shots seed,
        (run acts).bomb player target shots seed = .error .invalidState := by
      intro player target shots seed
      unfold GameSession.bomb
      rw [if_pos (by rw [hf]; decide)]
    refine ⟨hfin hf, hsl, hbd, ?_⟩
    intro a
    cases a with
    | setLayout player positions =>
      rw [step_setLayout, hsl player positions]
    | bomb player target shots seed =>
      rw [step_bomb, hbd player target shots seed]

/-- Claim C9: the Measurement Simulator is deterministic in its injected seed:
with the same seed, layout, target and shot count, two runs report identical
histograms and identical per-position empirical probabilities. -/
theorem measure_deterministic (layout : List Nat) (target shots seed : Nat)
    (m₁ m₂ : MeasurementResult)
    (h₁ : measure layout target shots seed = .ok m₁)
    (h₂ : measure layout target shots seed = .ok m₂) :
    m₁.counts = m₂.counts ∧ m₁.probabilities = m₂.probabilities := by
  rw [h₁] at h₂
  obtain rfl : m₁ = m₂ := Except.ok.inj h₂
  exact ⟨rfl, rfl⟩

/-- Witness for C9: two runs of the concrete call `measure [0, 2, 4] 1 2 3`
agree on histogram and probabilities. -/
theorem measure_deterministic_witness :
    measure [0, 2, 4] 1 2 3 = .ok measureSampleResult ∧
      (measureSampleResult.counts = measureSampleResult.counts ∧
        measureSampleResult.probabilities = measureSampleResult.probabilities) :=
  ⟨measureSampleResult_eq,
    measure_deterministic [0, 2, 4] 1 2 3 measureSampleResult
      measureSampleResult measureSampleResult_eq measureSampleResult_eq⟩

/-- Claim C5: the per-player state view never contains the opponent's raw
ship positions: the `ownShips` field is the viewer's own layout, and the whole
response is unchanged under any replacement of the opponent's layout
(noninterference), so no part of it can reveal that layout. -/
theorem get_state_confidentiality (s : GameSession) (viewer : Player)
    (l : Option (List Nat)) :
    (s.getState viewer).ownShips = s.layoutOf viewer ∧
      (setLayoutField s viewer.opponent l).getState viewer =
        s.getState viewer := by
  cases viewer <;> exact ⟨rfl, rfl⟩

/-- Claim C7: the Measurement Simulator rejects an out-of-range target with
`InvalidPosition` and a zero shot count with `InvalidConfiguration`, in both
cases before any simulation runs, and a failed bomb call mutates no session
state. -/
theorem measure_validation (layout : List Nat) (target shots seed : Nat) :
    (gridSize ≤ target →
        measure layout target shots seed = .error .invalidPosition) ∧
      (target < gridSize → shots = 0 →
        measure layout target shots seed = .error .invalidConfiguration) ∧
      ∀ s : GameSession, ∀ player : Player, ∀ e : GameError,
        s.bomb player target shots seed = .error e →
          step s (.bomb player target shots seed) = s := by
  refine ⟨?_, ?_, ?_⟩
  · intro h
    unfold measure
    rw [if_pos h]
  · intro h1 h2
    unfold measure
    rw [if_neg (by omega), if_pos h2]
  · intro s player e h
    rw [step_bomb, h]

/-- Witness for C7: target 7 is rejected as `InvalidPosition`, a zero shot
count as `InvalidConfiguration`, and a failed bomb call leaves the session
unchanged. -/
theorem measure_validation_witness :
    (gridSize ≤ 7 ∧ measure [0] 7 2 0 = .error .invalidPosition) ∧
      ((1 : Nat) < gridSize ∧
        measure [0] 1 0 0 = .error .invalidConfiguration) ∧
      (newSession.bomb .one 7 2 0 = .error .invalidState ∧
        step newSession (.bomb .one 7 2 0) = newSession) := by
  refine ⟨⟨by decide, (measure_validation [0] 7 2 0).1 (by decide)⟩,
    ⟨by decide, (measure_validation [0] 1 0 0).2.1 (by decide) rfl⟩, rfl, ?_⟩
  exact (measure_validation [0] 7 2 0).2.2 newSession .one .invalidState rfl

/-- Claim C8: in the setup phase, `set_layout` succeeds exactly when the
submitted positions are 3 distinct in-range values; any other input is
rejected with `InvalidShipPlacement` and no state change. -/
theorem set_layout_validation (s : GameSession) (player : Player)
    (positions : List Nat) (hphase : s.phase = .awaitingLayouts) :
    ((∃ s', s.setLayout player positions = .ok s') ↔
        validLayout positions) ∧
      (¬ validLayout positions →
        s.setLayout player positions = .error .invalidShipPlacement ∧
          step s (.setLayout player positions) = s) := by
  have hne : ¬ s.phase ≠ .awaitingLayouts := not_ne_iff.mpr hphase
  constructor
  · constructor
    · rintro ⟨s', hs'⟩
      exact (setLayout_ok_anatomy hs').2.1
    · intro hval
      unfold GameSession.setLayout
      rw [if_neg hne, if_pos hval]
      exact ⟨_, rfl⟩
  · intro hval
    have herr : s.setLayout player positions =
        .error .invalidShipPlacement := by
      unfold GameSession.setLayout
      rw [if_neg hne, if_neg hval]
    exact ⟨herr, by rw [step_setLayout, herr]⟩

/-- Witness for C8: on a fresh session, `[0, 1, 2]` is accepted while the
duplicate-carrying `[0, 0, 1]` is rejected with no state change. -/
theorem set_layout_validation_witness :
    (newSession.phase = .awaitingLayouts ∧
        (∃ s', newSession.setLayout .one [0, 1, 2] = .ok s')) ∧
      (¬ validLayout [0, 0, 1] ∧
        newSession.setLayout .one [0, 0, 1] =
          .error .invalidShipPlacement ∧
        step newSession (.setLayout .one [0, 0, 1]) = newSession) := by
  refine ⟨⟨rfl, ?_⟩, by decide, ?_⟩
  · exact (set_layout_validation newSession .one [0, 1, 2] rfl).1.mpr
      (by decide)
  · exact (set_layout_validation newSession .one [0, 0, 1] rfl).2 (by decide)

/-- Counterexample to claim C4 as stated: the attack-grid display derives the
`destroyed` state from damage alone.  With damage 95 at position 0 and a fleet
layout `[1, 2, 3]` that does not contain 0, the cell at position 0 is still
classed `destroyed`, and the `Enemy Ships Destroyed` counter counts it. -/
theorem destruction_display_counterexample :
    "destroyed" ∈ getCellClass false [1, 2, 3] none [95, 0, 0, 0, 0] 0 ∧
      (0 : Nat) ∉ [1, 2, 3] ∧
      enemyShipsDestroyedCount [95, 0, 0, 0, 0] = 1 ∧
      playerShipsDestroyedCount [1, 2, 3] [95, 0, 0, 0, 0] = 0 := by
  decide

/-- Claim C4 (amended): a grid cell is displayed `destroyed` exactly when its
damage reaches 95 — ship membership is not consulted — while the player's own
destroyed-ship report lists exactly the own ship positions whose damage
reaches 95. -/
theorem destruction_display_amended (isSetupPhase : Bool)
    (playerShips : List Nat) (selectedPosition : Option Nat)
    (opponentDamage : List ℚ) (position : Nat) (playerDamage : List ℚ)
    (p : Nat) :
    ("destroyed" ∈ getCellClass isSetupPhase playerShips selectedPosition
          opponentDamage position ↔
        95 ≤ opponentDamage.getD position 0) ∧
      (p ∈ ownDestroyedPositions playerShips playerDamage ↔
        p ∈ playerShips ∧ 95 ≤ playerDamage.getD p 0) := by
  constructor
  · by_cases h95 : 95 ≤ opponentDamage.getD position 0
    · have h0 : 0 < opponentDamage.getD position 0 :=
        lt_of_lt_of_le (by norm_num) h95
      simp only [getCellClass, if_pos h0, if_pos h95]
      refine ⟨fun _ => h95, fun _ => ?_⟩
      exact List.mem_cons_of_mem _ (List.mem_append_right _ (by simp))
    · simp only [getCellClass]
      constructor
      · intro hmem
        exfalso
        rcases List.mem_cons.mp hmem with h | h
        · exact absurd h (by decide)
        · rcases List.mem_append.mp h with h | h
          · rcases List.mem_append.mp h with h | h <;>
              (revert h; split <;> decide)
          · rw [if_neg h95] at h
            revert h
            split
            · split <;> decide
            · decide
      · intro hcon
        exact absurd hcon h95
  · simp [ownDestroyedPositions, List.mem_filter]

theorem setupClick_fst_inv (sel : List Nat) (pos : Nat) (hnd : sel.Nodup)
    (hlen : sel.length ≤ 3) (hmem : ∀ p ∈ sel, p < gridSize)
    (hpos : pos < gridSize) :
    (setupClick sel pos).1.Nodup ∧ (setupClick sel pos).1.length ≤ 3 ∧
      ∀ p ∈ (setupClick sel pos).1, p < gridSize := by
  unfold setupClick
  split_ifs with h1 h2
  · refine ⟨List.Nodup.filter _ hnd, ?_, ?_⟩
    · have hf := List.length_filter_le (fun p => decide (p ≠ pos)) sel
      simp only []
      omega
    · intro p hp
      exact hmem p (List.mem_of_mem_filter hp)
  · refine ⟨?_, ?_, ?_⟩
    · rw [List.nodup_append]
      refine ⟨hnd, List.nodup_singleton _, ?_⟩
      intro a ha hb
      rw [List.mem_singleton] at hb
      subst hb
      exact h1 ha
    · simp only [List.length_append, List.length_singleton]
      omega
    · intro p hp
      rcases List.mem_append.mp hp with h | h
      · exact hmem p h
      · rw [List.mem_singleton] at h
        subst h
        exact hpos
  · exact ⟨hnd, hlen, hmem⟩

theorem runSetup_foldl_inv (clicks : List Nat) (sel : List Nat)
    (hc : ∀ c ∈ clicks, c < gridSize) (hnd : sel.Nodup)
    (hlen : sel.length ≤ 3) (hmem : ∀ p ∈ sel, p < gridSize) :
    (clicks.foldl (fun sel pos => (setupClick sel pos).1) sel).Nodup ∧
      (clicks.foldl (fun sel pos => (setupClick sel pos).1) sel).length ≤ 3 ∧
      ∀ p ∈ clicks.foldl (fun sel pos => (setupClick sel pos).1) sel,
        p < gridSize := by
  induction clicks generalizing sel with
  | nil => exact ⟨hnd, hlen, hmem⟩
  | cons c cs ih =>
    obtain ⟨h1, h2, h3⟩ := setupClick_fst_inv sel c hnd hlen hmem
      (hc c (by simp))
    exact ih _ (fun x hx => hc x (by simp [hx])) h1 h2 h3

/-- Claim C10: in the setup phase, the selected-positions list stays a
duplicate-free list of at most 3 in-range positions; clicking a selected
position removes it (and never commits); the commit to the backend fires
exactly when a fresh position is added to a 2-element selection, i.e. when
the third distinct position arrives. -/
theorem setup_selection_invariant (clicks : List Nat)
    (hc : ∀ c ∈ clicks, c < gridSize) :
    (runSetup clicks).Nodup ∧ (runSetup clicks).length ≤ 3 ∧
      (∀ p ∈ runSetup clicks, p < gridSize) ∧
      (∀ pos ∈ runSetup clicks,
        pos ∉ (setupClick (runSetup clicks) pos).1 ∧
          (setupClick (runSetup clicks) pos).2 = false) ∧
      ∀ pos, (setupClick (runSetup clicks) pos).2 = true ↔
        pos ∉ runSetup clicks ∧ (runSetup clicks).length = 2 := by
  obtain ⟨hnd, hlen, hmem⟩ := runSetup_foldl_inv clicks [] hc (by simp)
    (by simp) (by simp)
  refine ⟨hnd, hlen, hmem, ?_, ?_⟩
  · intro pos hpos
    unfold setupClick
    rw [if_pos hpos]
    refine ⟨?_, rfl⟩
    intro hcon
    have hf := (List.mem_filter.mp hcon).2
    simp at hf
  · intro pos
    unfold setupClick
    split_ifs with h1 h2
    · simp [h1]
    · simp only [decide_eq_true_eq, List.length_append,
        List.length_singleton]
      constructor
      · intro h
        exact ⟨h1, by omega⟩
      · rintro ⟨-, h⟩
        omega
    · constructor
      · intro h
        exact absurd h (by decide)
      · rintro ⟨-, h⟩
        omega

theorem bomb_one_step (s : GameSession) (target shots seed : Nat)
    (oppL : List Nat) (d : List ℚ) (m : MeasurementResult)
    (hph : s.phase = .inProgress) (hL : s.layout2 = some oppL)
    (hD : s.damage2 = d) (hm : measure oppL target shots seed = .ok m) :
    s.bomb .one target shots seed =
      (if allDestroyed oppL (applyDamage d target m.targetProbability) then
        .ok ({ s with
          damage2 := applyDamage d target m.targetProbability,
          history := s.history ++
            [⟨.one, target, m,
              (applyDamage d target m.targetProbability).getD target 0 -
                d.getD target 0,
              applyDamage d target m.targetProbability, s.round + 1⟩],
          round := s.round + 1, phase := .finished,
          winner := some .one }, m)
      else
        .ok ({ s with
          damage2 := applyDamage d target m.targetProbability,
          history := s.history ++
            [⟨.one, target, m,
              (applyDamage d target m.targetProbability).getD target 0 -
                d.getD target 0,
              applyDamage d target m.targetProbability, s.round + 1⟩],
          round := s.round + 1 }, m)) := by
  have hdm : s.damageOf Player.one.opponent = d := hD
  have hgd : (s.layoutOf Player.one.opponent).getD [] = oppL := by
    show s.layout2.getD [] = oppL
    rw [hL]
    rfl
  simp only [GameSession.bomb]
  rw [if_neg (not_ne_iff.mpr hph), hgd, hm, hdm]

theorem bombMeasurement_prob_one :
    (bombMeasurement 1 5).targetProbability = 1 := by
  show ((1 : Nat) : ℚ) / ((1 : Nat) : ℚ) = 1
  norm_num

theorem bombMeasurement_prob_three :
    (bombMeasurement 3 6).targetProbability = 1 := by
  show ((1 : Nat) : ℚ) / ((1 : Nat) : ℚ) = 1
  norm_num

theorem bombMeasurement_prob_four :
    (bombMeasurement 4 7).targetProbability = 1 := by
  show ((1 : Nat) : ℚ) / ((1 : Nat) : ℚ) = 1
  norm_num

theorem applyDamage_win_one :
    applyDamage [0, 0, 0, 0, 0] 1 (1 : ℚ) = [0, 100, 0, 0, 0] := by
  show [0, min 100 ((0 : ℚ) + 1 * 100), 0, 0, 0] = [0, 100, 0, 0, 0]
  norm_num

theorem applyDamage_win_two :
    applyDamage [0, 100, 0, 0, 0] 3 (1 : ℚ) = [0, 100, 0, 100, 0] := by
  show [0, 100, 0, min 100 ((0 : ℚ) + 1 * 100), 0] = [0, 100, 0, 100, 0]
  norm_num

theorem applyDamage_win_three :
    applyDamage [0, 100, 0, 100, 0] 4 (1 : ℚ) = [0, 100, 0, 100, 100] := by
  show [0, 100, 0, 100, min 100 ((0 : ℚ) + 1 * 100)] = [0, 100, 0, 100, 100]
  norm_num

theorem winActs_step_one :
    step bothLayoutsSession (.bomb .one 1 1 5) = sessionAfterBombOne := by
  rw [step_bomb,
    bomb_one_step bothLayoutsSession 1 1 5 [1, 3, 4] [0, 0, 0, 0, 0]
      (bombMeasurement 1 5) rfl rfl rfl rfl,
    bombMeasurement_prob_one, applyDamage_win_one,
    if_neg (show ¬ allDestroyed [1, 3, 4] ([0, 100, 0, 0, 0] : List ℚ)
      by decide)]
  rfl

theorem winActs_step_two :
    step sessionAfterBombOne (.bomb .one 3 1 6) = sessionAfterBombTwo := by
  rw [step_bomb,
    bomb_one_step sessionAfterBombOne 3 1 6 [1, 3, 4] [0, 100, 0, 0, 0]
      (bombMeasurement 3 6) rfl rfl rfl rfl,
    bombMeasurement_prob_three, applyDamage_win_two,
    if_neg (show ¬ allDestroyed [1, 3, 4] ([0, 100, 0, 100, 0] : List ℚ)
      by decide)]
  rfl

theorem winActs_step_three :
    (step sessionAfterBombTwo (.bomb .one 4 1 7)).phase = .finished := by
  rw [step_bomb,
    bomb_one_step sessionAfterBombTwo 4 1 7 [1, 3, 4] [0, 100, 0, 100, 0]
      (bombMeasurement 4 7) rfl rfl rfl rfl,
    bombMeasurement_prob_four, applyDamage_win_three,
    if_pos (show allDestroyed [1, 3, 4] ([0, 100, 0, 100, 100] : List ℚ)
      by decide)]

/-- Witness for C3: the concrete winning scenario `winActs` (one shot per
bomb, `p_ship = 1`) finishes the game; the recorded winner's opponent has a
fully destroyed fleet, and every further mutating call fails with
`InvalidState`, leaving the session unchanged. -/
theorem win_consistency_witness :
    (run winActs).phase = .finished ∧
      ((∃ w, (run winActs).winner = some w ∧
          (run winActs).fleetDestroyed w.opponent) ∧
        (∀ player positions,
          (run winActs).setLayout player positions =
            .error .invalidState) ∧
        (∀ player target shots seed,
          (run winActs).bomb player target shots seed =
            .error .invalidState) ∧
        ∀ a, step (run winActs) a = run winActs) := by
  have hrun : run winActs =
      step (step (step bothLayoutsSession (.bomb .one 1 1 5))
        (.bomb .one 3 1 6)) (.bomb .one 4 1 7) := rfl
  have hfin : (run winActs).phase = .finished := by
    rw [hrun, winActs_step_one, winActs_step_two]
    exact winActs_step_three
  exact ⟨hfin, (win_consistency winActs).2 hfin⟩

/-- Witness for C10: the concrete click sequence `[0, 2, 0, 4, 1]` (select 0,
select 2, deselect 0, select 4, select 1) satisfies all the invariant's
clauses. -/
theorem setup_selection_invariant_witness :
    (∀ c ∈ [0, 2, 0, 4, 1], c < gridSize) ∧
      ((runSetup [0, 2, 0, 4, 1]).Nodup ∧
        (runSetup [0, 2, 0, 4, 1]).length ≤ 3 ∧
        (∀ p ∈ runSetup [0, 2, 0, 4, 1], p < gridSize) ∧
        (∀ pos ∈ runSetup [0, 2, 0, 4, 1],
          pos ∉ (setupClick (runSetup [0, 2, 0, 4, 1]) pos).1 ∧
            (setupClick (runSetup [0, 2, 0, 4, 1]) pos).2 = false) ∧
        ∀ pos, (setupClick (runSetup [0, 2, 0, 4, 1]) pos).2 = true ↔
          pos ∉ runSetup [0, 2, 0, 4, 1] ∧
            (runSetup [0, 2, 0, 4, 1]).length = 2) :=
  ⟨by decide, setup_selection_invariant [0, 2, 0, 4, 1] (by decide)⟩

end QuantumBattleship
